import Mathlib

/- Verification of the AS3910 ISO14443-A reader driver core: the register
   address codec, the FIFO bit-packing primitive, the wake-up and halt
   commands, and the anti-collision select state machine.  The chip sits on
   the far side of a byte bus, so its behaviour is modelled by oracles that
   script the results of the bus transactions the driver performs; the driver
   logic itself is translated directly from the source.  Machine integers are
   Nat with explicit reductions modulo 256 where u8 wrapping matters.  Rust
   operations that can abort (out-of-range indexing, the unreachable branch
   in select) are modelled with Option or an explicit abort outcome. -/

namespace AS3910

/-- Register identifiers, from src/register.rs. -/
inductive Register where
  | ModeDefinition
  | OperationControl
  | ConfigurationRegister2
  | ConfigurationRegister3
  | ConfigurationRegister4
  | ConfigurationRegister5
  | ReceiverConfiguration
  | MaskInterrupt
  | Interrupt
  | FIFOStatus
  | Collision
  | NumberOfTransmittedBytes0
  | NumberOfTransmittedBytes1
  | ADConverterOutput
  | AntennaCalibration
  | ExternalTrim
  | ModularDepthDefinition
  | ModularDepthDisplay
  | AntennaDriverAMModulatedLevelDefinition
  | AntennaDriverNonModulatedLevelDefinition
  | NFCIPFieldDetectionThreshold
  | RegulatorsDisplay
  | RegulatedVoltageDefinition
  | ReceiverStateDisplay
deriving DecidableEq, Repr

/-- Numeric discriminant of each register, as declared in src/register.rs. -/
def Register.code : Register → Nat
  | .ModeDefinition => 0x00
  | .OperationControl => 0x01
  | .ConfigurationRegister2 => 0x02
  | .ConfigurationRegister3 => 0x03
  | .ConfigurationRegister4 => 0x04
  | .ConfigurationRegister5 => 0x05
  | .ReceiverConfiguration => 0x06
  | .MaskInterrupt => 0x07
  | .Interrupt => 0x08
  | .FIFOStatus => 0x09
  | .Collision => 0x0A
  | .NumberOfTransmittedBytes0 => 0x0B
  | .NumberOfTransmittedBytes1 => 0x0C
  | .ADConverterOutput => 0x0D
  | .AntennaCalibration => 0x0E
  | .ExternalTrim => 0x0F
  | .ModularDepthDefinition => 0x10
  | .ModularDepthDisplay => 0x11
  | .AntennaDriverAMModulatedLevelDefinition => 0x12
  | .AntennaDriverNonModulatedLevelDefinition => 0x13
  | .NFCIPFieldDetectionThreshold => 0x14
  | .RegulatorsDisplay => 0x15
  | .RegulatedVoltageDefinition => 0x16
  | .ReceiverStateDisplay => 0x17

/-- Wire address used to read a register: the code OR R, with R = 1 <<< 6. -/
def Register.read_address (r : Register) : Nat := r.code ||| (1 <<< 6)

/-- Wire address used to write a register: the code OR W, with W = 0 <<< 6. -/
def Register.write_address (r : Register) : Nat := r.code ||| (0 <<< 6)

/-- Direct commands, from src/command.rs. -/
inductive Command where
  | SetDefault
  | Clear
  | TransmitWithCRC
  | TransmitWithoutCRC
  | TransmitREQA
  | TransmitWUPA
  | NFCTransmitWithInitialRFCollisionAvoidance
  | NFCTransmitWithResponseRFCollisionAvoidance
  | NFCTransmitWithResponseRFCollisionAvoidanceWithN0
  | MaskReceiveData
  | UnmaskReceiveData
  | ADConvert
  | MeasureRF
  | Squelch
  | ClearSquelch
  | AdjustRegulators
  | CalibrateModulationDepth
  | CalibrateAntenna
  | CheckAntennaResonance
  | ClearRSSI
  | EnterTransparentMode
deriving DecidableEq, Repr

/-- Numeric discriminant of each command, as declared in src/command.rs. -/
def Command.code : Command → Nat
  | .SetDefault => 0b000001
  | .Clear => 0b000010
  | .TransmitWithCRC => 0b000100
  | .TransmitWithoutCRC => 0b000101
  | .TransmitREQA => 0b000110
  | .TransmitWUPA => 0b000111
  | .NFCTransmitWithInitialRFCollisionAvoidance => 0b001000
  | .NFCTransmitWithResponseRFCollisionAvoidance => 0b001001
  | .NFCTransmitWithResponseRFCollisionAvoidanceWithN0 => 0b001010
  | .MaskReceiveData => 0b010000
  | .UnmaskReceiveData => 0b010001
  | .ADConvert => 0b010010
  | .MeasureRF => 0b010011
  | .Squelch => 0b010100
  | .ClearSquelch => 0b010101
  | .AdjustRegulators => 0b010110
  | .CalibrateModulationDepth => 0b010111
  | .CalibrateAntenna => 0b011000
  | .CheckAntennaResonance => 0b011001
  | .ClearRSSI => 0b011010
  | .EnterTransparentMode => 0b011100

/-- Wire pattern of a command: the code OR C, with C = (1 <<< 7) + (1 <<< 6). -/
def Command.command_pattern (c : Command) : Nat := c.code ||| ((1 <<< 7) + (1 <<< 6))

/-- Driver error type, from the Error enum in src/lib.rs.  The payloads of the
transport-level variants are external type parameters and are left out. -/
inductive Error where
  | SpiManager
  | ChipSelect
  | InterruptPin
  | AntennaCalibration
  | InterruptTimeout
  | NoRoom
  | Collision
  | Proprietary
  | AntiCollisionMaxLoopsReached
  | IncompleteFrame
  | NotAcknowledged
deriving DecidableEq, Repr

/-- FifoData from src/lib.rs: a FIFO capture with its byte buffer, the count of
valid bytes and the count of valid bits in the following byte.  The buffer is a
list whose length plays the role of the capacity parameter L. -/
structure FifoData where
  buffer : List Nat
  valid_bytes : Nat
  valid_bits : Nat
deriving DecidableEq, Repr

/-- Overwrite the elements of l at positions start, start+1, ... with seg, the
Lean counterpart of a Rust copy_from_slice into l[start..start+seg.len()]. -/
def setSlice (l : List Nat) (start : Nat) (seg : List Nat) : List Nat :=
  l.take start ++ seg ++ l.drop (start + seg.length)

/-- FifoData::copy_bits_to from src/lib.rs, line for line.  The destination
slice is passed in and returned updated together with the returned bit count;
none models the a-b-o-r-t of an out-of-range slice index in the source.  All u8
arithmetic carries an explicit reduction modulo 256. -/
def FifoData.copy_bits_to (fd : FifoData) (dst : List Nat) (dst_valid_bits : Nat) :
    Option (List Nat × Nat) :=
  if fd.valid_bytes = 0 then some (dst, dst_valid_bits)
  else
    let dst_valid_bytes := dst_valid_bits / 8
    let dst_valid_last_bits := dst_valid_bits % 8
    let mask := (255 <<< dst_valid_last_bits) % 256
    let idx := dst_valid_bytes
    if idx < dst.length ∧ 0 < fd.buffer.length then
      let merged := ((fd.buffer.getD 0 0) &&& mask) ||| ((dst.getD idx 0) &&& (255 ^^^ mask))
      let dst1 := dst.set idx merged
      let len := fd.valid_bytes - 1
      let ret := (dst_valid_bits + len * 8 + fd.valid_bits) % 256
      if 0 < len then
        if idx + 1 + len ≤ dst1.length ∧ len + 1 ≤ fd.buffer.length then
          some (setSlice dst1 (idx + 1) ((fd.buffer.drop 1).take len), ret)
        else none
      else some (dst1, ret)
    else none

/-- Interrupt mask bit END_OF_RECEIVE from src/register.rs. -/
def endOfReceive : Nat := 0b00010000

/-- One logical bus operation, used to record the transaction trace of the
wake-up commands. -/
inductive BusOp where
  | cmd (c : Command)
  | writeReg (r : Register) (v : Nat)
  | readReg (r : Register)
  | readFifo (n : Nat)
  | writeFifo (bytes : List Nat)
deriving DecidableEq, Repr

/-- Environment of a wake-up command: the registers the chip answers with, the
level of the interrupt pin at each poll, and the FIFO byte stream.  Reading the
interrupt pin is modelled as infallible. -/
structure WakeChip where
  interruptVal : Nat
  fifoStatus : Nat
  intrHigh : Nat → Bool
  fifo : Nat → Nat

/-- Poll loop of wait_for_interrupt from src/lib.rs.  The fuel argument is
timeout + 1 - i, which the loop structure keeps positive until it exits, so the
fuel-exhausted base case is never taken.  On a high pin the Interrupt register
is read (InterruptFlags::from_bits_truncate keeps all eight bits). -/
def waitGo (intrHigh : Nat → Bool) (interruptVal : Nat) (timeout : Nat) :
    Nat → Nat → Except Error Nat × List BusOp
  | 0, _ => (.error .InterruptTimeout, [])
  | fuel + 1, i =>
    if intrHigh i then (.ok (interruptVal % 256), [.readReg .Interrupt])
    else if timeout ≤ i then (.error .InterruptTimeout, [])
    else waitGo intrHigh interruptVal timeout fuel (i + 1)

/-- wait_for_interrupt from src/lib.rs: poll the interrupt pin once per
millisecond until it is high or timeout polls have failed. -/
def wait_for_interrupt (chip : WakeChip) (timeout : Nat) : Except Error Nat × List BusOp :=
  waitGo chip.intrHigh chip.interruptVal timeout (timeout + 1) 0

/-- Bus operations of setup_interrupt_mask(END_OF_RECEIVE): write the inverted
mask, then read (and thereby clear) the Interrupt register. -/
def setupMaskOps : List BusOp :=
  [.writeReg .MaskInterrupt (255 ^^^ endOfReceive), .readReg .Interrupt]

/-- AS3910::reqa from src/lib.rs: clear, configure, transmit REQA, wait, then
inspect the FIFO status; the all-ones sentinel in the high six bits means no
card and yields an empty result, otherwise two bytes are read from the FIFO.
Returns the result together with the trace of bus operations performed. -/
def reqa (chip : WakeChip) : Except Error (Option (List Nat)) × List BusOp :=
  let pre : List BusOp :=
    [.cmd .Clear, .writeReg .ConfigurationRegister3 0x80] ++ setupMaskOps ++ [.cmd .TransmitREQA]
  match wait_for_interrupt chip 5 with
  | (.error e, wops) => (.error e, pre ++ wops)
  | (.ok _, wops) =>
    let fifo_reg := chip.fifoStatus % 256
    if fifo_reg >>> 2 = 0b00111111 then (.ok none, pre ++ wops ++ [.readReg .FIFOStatus])
    else
      (.ok (some [chip.fifo 0 % 256, chip.fifo 1 % 256]),
        pre ++ wops ++ [.readReg .FIFOStatus, .readFifo 2])

/-- AS3910::wupa from src/lib.rs: identical to reqa except for the preamble,
which transmits WUPA and does not clear or touch ConfigurationRegister3. -/
def wupa (chip : WakeChip) : Except Error (Option (List Nat)) × List BusOp :=
  let pre : List BusOp := setupMaskOps ++ [.cmd .TransmitWUPA]
  match wait_for_interrupt chip 5 with
  | (.error e, wops) => (.error e, pre ++ wops)
  | (.ok _, wops) =>
    let fifo_reg := chip.fifoStatus % 256
    if fifo_reg >>> 2 = 0b00111111 then (.ok none, pre ++ wops ++ [.readReg .FIFOStatus])
    else
      (.ok (some [chip.fifo 0 % 256, chip.fifo 1 % 256]),
        pre ++ wops ++ [.readReg .FIFOStatus, .readFifo 2])

/-- AS3910::hlta from src/lib.rs, as a function of the result of the
communicate_to_picc call on the frame [0x50, 0x00] with CRC and without
anti-collision: only an InterruptTimeout is success, a received frame is
NotAcknowledged, anything else passes through. -/
def hlta (comm : Except Error FifoData) : Except Error Unit :=
  match comm with
  | .error .InterruptTimeout => .ok ()
  | .ok _ => .error .NotAcknowledged
  | .error e => .error e

/-- Scripted outcome of one communicate_to_picc call inside select, plus the
outcomes of the Collision register read and the fifo_data harvest that the
collision arm performs; the latter two are consulted only when comm is the
Collision error.  This is the oracle granularity of the select model. -/
structure ChipRound where
  comm : Except Error FifoData
  collReg : Except Error Nat
  collFifo : Except Error FifoData

/-- bytes_before_coll in AS3910::select: the high nibble of the Collision
register minus 2, computed in wrapping u8 arithmetic. -/
def bytes_before_coll (cr : Nat) : Nat := (((cr >>> 4) &&& 0b1111) + 254) % 256

/-- bits_before_coll in AS3910::select. -/
def bits_before_coll (cr : Nat) : Nat := (cr >>> 1) &&& 0b111

/-- coll_pos in AS3910::select: bytes_before_coll * 8 + bits_before_coll + 1
in wrapping u8 arithmetic. -/
def decode_coll_pos (cr : Nat) : Nat :=
  (bytes_before_coll cr * 8 + bits_before_coll cr + 1) % 256

/-- Outcome of one round of the anti-collision inner loop. -/
inductive ACStep where
  | cont (tx : List Nat) (kb : Nat)
  | brk (tx : List Nat)
  | fail (e : Error)
  | aborted
deriving DecidableEq, Repr

/-- Outcome of the anti-collision inner loop. -/
inductive ACOut where
  | done (tx : List Nat)
  | fail (e : Error)
  | abort
deriving DecidableEq, Repr

/-- One iteration of the anti-collision inner loop of AS3910::select (the body
of the loop after the cycle-counter check), for one scripted chip round.  tx is
the 9-byte working frame and kb the current known_bits.  aborted marks the
places where the source indexes out of range. -/
def anticollision_step (round : ChipRound) (tx : List Nat) (kb : Nat) : ACStep :=
  let tx_last_bits := kb % 8
  let tx_bytes := 2 + kb / 8
  let endIdx := tx_bytes + (if tx_last_bits > 0 then 1 else 0)
  let tx := tx.set 1 ((tx_bytes * 16) % 256 + tx_last_bits)
  if tx.length < endIdx then .aborted
  else
    match round.comm with
    | .ok fd =>
      match fd.copy_bits_to ((tx.drop 2).take 5) kb with
      | none => .aborted
      | some (dst, _) => .brk (setSlice tx 2 dst)
    | .error .Collision =>
      match round.collReg with
      | .error e => .fail e
      | .ok cr =>
        let coll_pos := decode_coll_pos (cr % 256)
        if coll_pos < kb ∨ coll_pos > 8 * 9 then .fail .Collision
        else
          match round.collFifo with
          | .error e => .fail e
          | .ok fd =>
            match fd.copy_bits_to ((tx.drop 2).take 5) kb with
            | none => .aborted
            | some (dst, _) =>
              let tx := setSlice tx 2 dst
              let kb := coll_pos
              let count := kb % 8
              let check_bit := ((kb + 255) % 256) % 8
              let index := 1 + kb / 8 + (if count ≠ 0 then 1 else 0)
              if index < tx.length then
                .cont (tx.set index ((tx.getD index 0) ||| (1 <<< check_bit))) kb
              else .aborted
    | .error e => .fail e

/-- Anti-collision inner loop of AS3910::select.  The source counts rounds
upward and fails once anticollision_cycle_counter exceeds 32, before any bus
operation of that round; here remaining = 32 - counter counts down, so the
loop starts with remaining = 32.  idx is the position in the oracle stream;
each executed round consumes exactly one scripted chip round.  Returns the
outcome together with the next unconsumed stream position. -/
def anticollision_loop (oracle : Nat → ChipRound) :
    Nat → Nat → List Nat → Nat → ACOut × Nat
  | 0, idx, _, _ => (.fail .AntiCollisionMaxLoopsReached, idx)
  | remaining + 1, idx, tx, kb =>
    match anticollision_step (oracle idx) tx kb with
    | .cont tx kb => anticollision_loop oracle remaining (idx + 1) tx kb
    | .brk tx => (.done tx, idx + 1)
    | .fail e => (.fail e, idx + 1)
    | .aborted => (.abort, idx + 1)

/-- Modelled from the spec: Sak bit 2 (0x04) signals that the UID is
incomplete and a further cascade level follows (picc.rs is declared in
src/lib.rs but its source is not in the repository snapshot). -/
def sak_is_complete (sak : Nat) : Bool := sak &&& 0x04 = 0

/-- Modelled from the spec: the cascade select command byte for each cascade
level, picc::Command::SelCl1/SelCl2/SelCl3 (values are the ISO14443-3 SEL
codes; picc.rs is not in the repository snapshot, and no claim depends on the
concrete values). -/
def sel_cmd : Nat → Nat
  | 0 => 0x93
  | 1 => 0x95
  | 2 => 0x97
  | _ => 0

/-- UIDs, from src/lib.rs: 4, 7 or 10 accumulated bytes paired with the
terminating Sak byte. -/
inductive Uid where
  | single (bytes : List Nat) (sak : Nat)
  | double (bytes : List Nat) (sak : Nat)
  | triple (bytes : List Nat) (sak : Nat)
deriving DecidableEq, Repr

/-- Result of AS3910::select: a UID, a typed error, or an a-b-o-r-t of the
process (the unreachable branch or an out-of-range index). -/
inductive SelOut where
  | ok (uid : Uid)
  | err (e : Error)
  | abort
deriving DecidableEq, Repr

/-- Cascade loop of AS3910::select.  Each iteration either breaks with a
complete Sak or increments the cascade level; at level 3 the source reaches
unreachable, so fuel 4 never runs out and the fuel base case is dead code.
idx is the oracle stream position: the anti-collision loop consumes one round
per iteration and the select frame of each level consumes one more. -/
def select_cascade (oracle : Nat → ChipRound) :
    Nat → Nat → Nat → List Nat → Nat → SelOut
  | 0, _, _, _, _ => .abort
  | fuel + 1, idx, level, uidBytes, uidIdx =>
    if 3 ≤ level then .abort
    else
      let tx0 := (List.replicate 9 0).set 0 (sel_cmd level)
      match anticollision_loop oracle 32 idx tx0 0 with
      | (.fail e, _) => .err e
      | (.abort, _) => .abort
      | (.done tx1, idx1) =>
        let tx2 := tx1.set 1 0x70
        let tx3 := tx2.set 6 ((((tx2.getD 2 0) ^^^ (tx2.getD 3 0)) ^^^ (tx2.getD 4 0)) ^^^ (tx2.getD 5 0))
        match (oracle idx1).comm with
        | .error e => .err e
        | .ok rx =>
          let sak := rx.buffer.getD 0 0
          if ¬ sak_is_complete sak then
            if uidIdx + 3 ≤ uidBytes.length then
              select_cascade oracle fuel (idx1 + 1) (level + 1)
                (setSlice uidBytes uidIdx ((tx3.drop 3).take 3)) (uidIdx + 3)
            else .abort
          else
            if uidIdx + 4 ≤ uidBytes.length then
              let uid := setSlice uidBytes uidIdx ((tx3.drop 2).take 4)
              match level with
              | 0 => .ok (.single (uid.take 4) sak)
              | 1 => .ok (.double (uid.take 7) sak)
              | 2 => .ok (.triple uid sak)
              | _ => .abort
            else .abort

/-- AS3910::select from src/lib.rs, over an oracle scripting the chip rounds. -/
def select (oracle : Nat → ChipRound) : SelOut :=
  select_cascade oracle 4 0 0 (List.replicate 10 0) 0

/-- A scripted chip round used as the default entry of the concrete oracles
beyond their scripted prefix; its rounds are never consumed in the runs below. -/
def padRound : ChipRound := ⟨.error .NoRoom, .ok 0, .ok ⟨[0, 0, 0, 0, 0], 0, 0⟩⟩

/-- Oracle of a single-cascade run whose second collision reports a collision
position equal to the 5 bits already known: two collisions decoding to
position 5 (Collision register 0x28), then a successful frame completing the
UID bits, then a complete-Sak select frame. -/
def equalPosOracle : Nat → ChipRound := fun i =>
  [ChipRound.mk (.error .Collision) (.ok 0x28) (.ok ⟨[0x04, 0, 0, 0, 0], 1, 0⟩),
   ChipRound.mk (.error .Collision) (.ok 0x28) (.ok ⟨[0x04, 0, 0, 0, 0], 1, 0⟩),
   ChipRound.mk (.ok ⟨[0, 1, 2, 3, 0], 5, 0⟩) (.ok 0) (.ok ⟨[0, 0, 0, 0, 0], 0, 0⟩),
   ChipRound.mk (.ok ⟨[0x00], 1, 0⟩) (.ok 0) (.ok ⟨[0, 0, 0, 0, 0], 0, 0⟩)].getD i padRound

/-- Oracle that reports on every round a collision decoding to position 1
(Collision register 0x20), so the inner loop never makes progress past bit 1
and never resolves. -/
def stuckCollisionOracle : Nat → ChipRound := fun _ =>
  ⟨.error .Collision, .ok 0x20, .ok ⟨[0, 0, 0, 0, 0], 0, 0⟩⟩

/-- Oracle of a card needing two cascade levels: level 0 receives the cascade
tag 0x88 plus three UID bytes and an incomplete Sak (bit 2 set), level 1
receives four UID bytes and a complete Sak 0. -/
def twoCascadeOracle : Nat → ChipRound := fun i =>
  [ChipRound.mk (.ok ⟨[0x88, 1, 2, 3, 0x88], 5, 0⟩) (.ok 0) (.ok ⟨[0, 0, 0, 0, 0], 0, 0⟩),
   ChipRound.mk (.ok ⟨[0x04], 1, 0⟩) (.ok 0) (.ok ⟨[0, 0, 0, 0, 0], 0, 0⟩),
   ChipRound.mk (.ok ⟨[4, 5, 6, 7, 255], 5, 0⟩) (.ok 0) (.ok ⟨[0, 0, 0, 0, 0], 0, 0⟩),
   ChipRound.mk (.ok ⟨[0x00], 1, 0⟩) (.ok 0) (.ok ⟨[0, 0, 0, 0, 0], 0, 0⟩)].getD i padRound

/-- Oracle whose select frames always answer with an incomplete Sak (bit 2
set), driving the cascade level past 2: even rounds answer the anti-collision
frame with a full capture, odd rounds answer the select frame with Sak 0x04. -/
def alwaysIncompleteOracle : Nat → ChipRound := fun i =>
  if i % 2 = 0 then ⟨.ok ⟨[0x88, 1, 2, 3, 0x88], 5, 0⟩, .ok 0, .ok ⟨[0, 0, 0, 0, 0], 0, 0⟩⟩
  else ⟨.ok ⟨[0x04], 1, 0⟩, .ok 0, .ok ⟨[0, 0, 0, 0, 0], 0, 0⟩⟩

/-- Chip for the wake-up witness: interrupt pin immediately high, FIFO status
carrying the all-ones no-card sentinel in its high six bits. -/
def sentinelChip : WakeChip := ⟨0, 0b11111100, fun _ => true, fun _ => 0⟩

end AS3910

namespace AS3910

/-- Bits below k of the boundary mask 255 <<< k are clear, and the
corresponding bits of its u8 complement are set, for every shift below 8. -/
theorem mask_testBit_lo : ∀ k, k < 8 → ∀ i, i < k →
    ((255 <<< k) % 256).testBit i = false ∧
    (255 ^^^ ((255 <<< k) % 256)).testBit i = true := by decide

/-- The masked merge performed by copy_bits_to leaves the low k bits of the
destination byte unchanged. -/
theorem merge_preserves (b d k : Nat) (hk : k < 8) :
    ((b &&& ((255 <<< k) % 256)) ||| (d &&& (255 ^^^ ((255 <<< k) % 256)))) % 2 ^ k
      = d % 2 ^ k := by
  apply Nat.eq_of_testBit_eq
  intro i
  rw [Nat.testBit_mod_two_pow, Nat.testBit_mod_two_pow, Nat.testBit_or,
    Nat.testBit_and, Nat.testBit_and]
  by_cases hi : i < k
  · obtain ⟨h1, h2⟩ := mask_testBit_lo k hk i hi
    simp [hi, h1, h2]
  · simp [hi]

/-- Entries of a list below the start of a setSlice are unchanged. -/
theorem setSlice_getD_of_lt (l seg : List Nat) (s i : Nat) (hi : i < s)
    (hs : s ≤ l.length) : (setSlice l s seg).getD i 0 = l.getD i 0 := by
  unfold setSlice
  have h1 : i < l.length := by omega
  have hlen : i < (l.take s).length := by
    simp only [List.length_take]
    omega
  simp [List.getD_eq_getElem?_getD, List.getElem?_append, hlen, List.getElem?_take, hi, h1]

/-- Setting an in-range entry of a list makes getD at that position the new
value. -/
theorem getD_set_self (l : List Nat) (i a : Nat) (h : i < l.length) :
    (l.set i a).getD i 0 = a := by
  simp [List.getD_eq_getElem?_getD, List.getElem?_set_self, h]

/-- C1: for dst_valid_bits = 0 and a source holding exactly one full byte 0xAB
(valid_bytes = 1, valid_bits = 0), copy_bits_to sets dst[0] = 0xAB but returns
0, not the 8 the claim and the doc comment of the source function state: the
returned count dst_valid_bits + (valid_bytes - 1) * 8 + valid_bits never
counts the bits merged out of the first source byte. -/
theorem copy_bits_to_full_byte_eval :
    FifoData.copy_bits_to ⟨[0xAB, 0, 0, 0, 0], 1, 0⟩ [0, 0, 0, 0, 0] 0
      = some ([0xAB, 0, 0, 0, 0], 0) := by rfl

/-- C5: whenever dst_valid_bits is not a byte multiple, the masked merge at the
destination boundary byte preserves its low dst_valid_bits mod 8 bits (for any
source and destination, stated over every successful run); and the concrete
scenario dst_valid_bits = 4, dst[0] = 0x05, source byte 0xF0 yields 0xF5. -/
theorem copy_bits_to_masked_merge :
    (∀ (fd : FifoData) (dst dst2 : List Nat) (dvb r : Nat),
        dvb % 8 ≠ 0 →
        fd.copy_bits_to dst dvb = some (dst2, r) →
        dst2.getD (dvb / 8) 0 % 2 ^ (dvb % 8) = dst.getD (dvb / 8) 0 % 2 ^ (dvb % 8))
    ∧ FifoData.copy_bits_to ⟨[0xF0, 0, 0, 0, 0], 1, 0⟩ [0x05, 0, 0, 0, 0] 4
        = some ([0xF5, 0, 0, 0, 0], 4) := by
  constructor
  · intro fd dst dst2 dvb r hk hres
    by_cases h0 : fd.valid_bytes = 0
    · rw [FifoData.copy_bits_to, if_pos h0] at hres
      simp only [Option.some.injEq, Prod.mk.injEq] at hres
      rw [← hres.1]
    · rw [FifoData.copy_bits_to, if_neg h0] at hres
      dsimp only at hres
      have hk8 : dvb % 8 < 8 := Nat.mod_lt _ (by omega)
      split at hres
      · rename_i hguard
        split at hres
        · rename_i hlen
          split at hres
          · rename_i hguard2
            simp only [List.length_set] at hguard2
            simp only [Option.some.injEq, Prod.mk.injEq] at hres
            rw [← hres.1]
            rw [setSlice_getD_of_lt]
            · rw [getD_set_self _ _ _ hguard.1]
              exact merge_preserves _ _ _ hk8
            · omega
            · simp only [List.length_set]
              omega
          · exact absurd hres (by simp)
        · simp only [Option.some.injEq, Prod.mk.injEq] at hres
          rw [← hres.1]
          rw [getD_set_self _ _ _ hguard.1]
          exact merge_preserves _ _ _ hk8
      · exact absurd hres (by simp)
  · rfl


/-- When the XOR of two numbers is a single power of two, they agree at every
other bit position and differ at that one. -/
theorem xor_two_pow_bits (x y n : Nat) (h : x ^^^ y = 2 ^ n) :
    (∀ i, i ≠ n → x.testBit i = y.testBit i) ∧ x.testBit n ≠ y.testBit n := by
  constructor
  · intro i hi
    have hb := congrArg (fun m => Nat.testBit m i) h
    simp only [Nat.testBit_xor, Nat.testBit_two_pow] at hb
    have hd : decide (n = i) = false := by
      simp [Ne.symm hi]
    rw [hd] at hb
    cases hx : x.testBit i <;> cases hy : y.testBit i <;> simp_all
  · intro hcon
    have hb := congrArg (fun m => Nat.testBit m n) h
    simp only [Nat.testBit_xor, Nat.testBit_two_pow] at hb
    rw [hcon] at hb
    simp at hb

/-- C8: for every Register variant, read_address and write_address differ in
exactly one bit, the direction bit (bit 6), and agree in all other bits. -/
theorem register_rw_address_direction_bit :
    ∀ r : Register,
      r.read_address ^^^ r.write_address = 2 ^ 6 ∧
      (∀ i, i ≠ 6 → (r.read_address).testBit i = (r.write_address).testBit i) ∧
      (r.read_address).testBit 6 ≠ (r.write_address).testBit 6 := by
  intro r
  have h : r.read_address ^^^ r.write_address = 2 ^ 6 := by
    cases r <;> decide
  exact ⟨h, (xor_two_pow_bits _ _ _ h).1, (xor_two_pow_bits _ _ _ h).2⟩

/-- Witness for C8 at the Interrupt register and bit position 0. -/
theorem register_rw_address_direction_bit_witness :
    Register.Interrupt.read_address ^^^ Register.Interrupt.write_address = 2 ^ 6 ∧
    (Register.Interrupt.read_address).testBit 0 = (Register.Interrupt.write_address).testBit 0 ∧
    (Register.Interrupt.read_address).testBit 6 ≠ (Register.Interrupt.write_address).testBit 6 :=
  ⟨(register_rw_address_direction_bit .Interrupt).1,
   (register_rw_address_direction_bit .Interrupt).2.1 0 (by decide),
   (register_rw_address_direction_bit .Interrupt).2.2⟩

/-- C10: the high-nibble-minus-2 decode of the Collision register is exact
(no underflow) precisely when the high nibble is at least 2; for a high nibble
of 0 or 1 the wrapping u8 subtraction underflows to at least 254. -/
theorem coll_reg_high_nibble_underflow :
    ∀ cr : Nat,
      (2 ≤ (cr >>> 4) &&& 0b1111 → bytes_before_coll cr + 2 = (cr >>> 4) &&& 0b1111) ∧
      ((cr >>> 4) &&& 0b1111 < 2 →
        254 ≤ bytes_before_coll cr ∧
        ((cr >>> 4) &&& 0b1111 = 0 ∨ (cr >>> 4) &&& 0b1111 = 1)) := by
  intro cr
  have hle : (cr >>> 4) &&& 0b1111 ≤ 15 := Nat.and_le_right
  unfold bytes_before_coll
  constructor
  · intro h2
    omega
  · intro h2
    exact ⟨by omega, by omega⟩

/-- Witness for C10 at Collision register values 0x30 and 0x10. -/
theorem coll_reg_high_nibble_underflow_witness :
    bytes_before_coll 0x30 + 2 = (0x30 >>> 4) &&& 0b1111 ∧
    254 ≤ bytes_before_coll 0x10 :=
  ⟨(coll_reg_high_nibble_underflow 0x30).1 (by decide),
   ((coll_reg_high_nibble_underflow 0x10).2 (by decide)).1⟩

/-- C6: hlta succeeds exactly when the communicate-to-PICC call fails with
InterruptTimeout; a successful frame yields NotAcknowledged, and every other
error passes through unchanged. -/
theorem hlta_timeout_success :
    ∀ r : Except Error FifoData,
      (hlta r = .ok () ↔ r = .error .InterruptTimeout) ∧
      (∀ fd, r = .ok fd → hlta r = .error .NotAcknowledged) ∧
      (∀ e, r = .error e → e ≠ .InterruptTimeout → hlta r = .error e) := by
  intro r
  refine ⟨?_, ?_, ?_⟩
  · cases r with
    | ok fd => simp [hlta]
    | error e => cases e <;> simp [hlta]
  · intro fd h
    subst h
    simp [hlta]
  · intro e h hne
    subst h
    cases e <;> simp_all [hlta]

/-- Witness for C6 at an InterruptTimeout, a successful empty frame, and a
NoRoom error. -/
theorem hlta_timeout_success_witness :
    hlta (.error .InterruptTimeout) = .ok () ∧
    hlta (.ok ⟨[], 0, 0⟩) = .error .NotAcknowledged ∧
    hlta (.error .NoRoom) = .error .NoRoom :=
  ⟨(hlta_timeout_success (.error .InterruptTimeout)).1.mpr rfl,
   (hlta_timeout_success (.ok ⟨[], 0, 0⟩)).2.1 ⟨[], 0, 0⟩ rfl,
   (hlta_timeout_success (.error .NoRoom)).2.2 .NoRoom rfl (by decide)⟩


/-- The anti-collision loop consumes at most one scripted chip round per
remaining iteration: the returned stream position never passes idx + rem. -/
theorem anticollision_loop_consumption (oracle : Nat → ChipRound) :
    ∀ (rem idx : Nat) (tx : List Nat) (kb : Nat),
      (anticollision_loop oracle rem idx tx kb).2 ≤ idx + rem := by
  intro rem
  induction rem with
  | zero =>
    intro idx tx kb
    simp [anticollision_loop]
  | succ n ihr =>
    intro idx tx kb
    simp only [anticollision_loop]
    cases h : anticollision_step (oracle idx) tx kb with
    | cont tx2 kb2 =>
      dsimp only
      have := ihr (idx + 1) tx2 kb2
      omega
    | brk tx2 =>
      dsimp only
      omega
    | fail e =>
      dsimp only
      omega
    | aborted =>
      dsimp only
      omega

/-- The anti-collision loop only consults the scripted rounds at stream
positions idx, ..., idx + rem - 1: two oracles agreeing there give identical
outcomes. -/
theorem anticollision_loop_oracle_agree :
    ∀ (rem : Nat) (o1 o2 : Nat → ChipRound) (idx : Nat) (tx : List Nat) (kb : Nat),
      (∀ j, idx ≤ j → j < idx + rem → o1 j = o2 j) →
      anticollision_loop o1 rem idx tx kb = anticollision_loop o2 rem idx tx kb := by
  intro rem
  induction rem with
  | zero =>
    intro o1 o2 idx tx kb h
    rfl
  | succ n ihr =>
    intro o1 o2 idx tx kb h
    have h0 : o1 idx = o2 idx := h idx (le_refl _) (by omega)
    simp only [anticollision_loop, h0]
    cases hs : anticollision_step (o2 idx) tx kb with
    | cont tx2 kb2 =>
      simp only [hs]
      exact ihr o1 o2 (idx + 1) tx2 kb2 (fun j hj1 hj2 => h j (by omega) (by omega))
    | brk tx2 => simp [hs]
    | fail e => simp [hs]
    | aborted => simp [hs]

/-- C3: the anti-collision inner loop executes at most 32 rounds per cascade
level: it consumes at most 32 scripted chip rounds, its outcome is independent
of every round from the 33rd on, and a chip producing only non-resolving
collisions makes select fail with AntiCollisionMaxLoopsReached. -/
theorem anticollision_max_loops :
    (∀ (oracle : Nat → ChipRound) (idx : Nat) (tx : List Nat) (kb : Nat),
        (anticollision_loop oracle 32 idx tx kb).2 ≤ idx + 32) ∧
    (∀ (o1 o2 : Nat → ChipRound) (idx : Nat) (tx : List Nat) (kb : Nat),
        (∀ j, idx ≤ j → j < idx + 32 → o1 j = o2 j) →
        anticollision_loop o1 32 idx tx kb = anticollision_loop o2 32 idx tx kb) ∧
    select stuckCollisionOracle = .err .AntiCollisionMaxLoopsReached :=
  ⟨fun oracle idx tx kb => anticollision_loop_consumption oracle 32 idx tx kb,
   fun o1 o2 idx tx kb h => anticollision_loop_oracle_agree 32 o1 o2 idx tx kb h,
   by decide⟩

/-- Witness for C3 on the stuck-collision oracle and the level-0 working
frame. -/
theorem anticollision_max_loops_witness :
    (anticollision_loop stuckCollisionOracle 32 0 ((List.replicate 9 0).set 0 0x93) 0).2
        ≤ 0 + 32 ∧
    anticollision_loop stuckCollisionOracle 32 0 ((List.replicate 9 0).set 0 0x93) 0 =
      anticollision_loop stuckCollisionOracle 32 0 ((List.replicate 9 0).set 0 0x93) 0 ∧
    select stuckCollisionOracle = .err .AntiCollisionMaxLoopsReached :=
  ⟨anticollision_max_loops.1 stuckCollisionOracle 0 _ 0,
   anticollision_max_loops.2.1 stuckCollisionOracle stuckCollisionOracle 0 _ 0
     (fun j h1 h2 => rfl),
   anticollision_max_loops.2.2⟩

/-- C4: a card needing two cascade levels yields Uid.double with exactly the 7
accumulated bytes: level 0 contributes 3 of its 4 received bytes (the cascade
tag 0x88 is dropped), level 1 with a complete Sak contributes all 4, paired
with the final Sak. -/
theorem select_two_cascade_double :
    select twoCascadeOracle = .ok (.double [1, 2, 3, 4, 5, 6, 7] 0) := by decide

/-- C9: when the select frame of cascade level 2 also answers with an
incomplete Sak, the cascade level is incremented to 3 and the next loop
iteration reaches the unreachable branch: select ends in the modelled
process-a-b-o-r-t outcome instead of a typed error. -/
theorem select_incomplete_level3_aborts :
    select alwaysIncompleteOracle = .abort := by decide

/-- C2 counterexample: at round 1 of equalPosOracle the decoded collision
position equals the 5 bits already known (it did not advance past known_bits),
yet the inner loop continues instead of failing, and the whole select run
succeeds, contradicting the claim that such a round must fail with a Collision
error. -/
theorem collision_equal_pos_continues :
    decode_coll_pos 0x28 = 5 ∧
    anticollision_step (equalPosOracle 1) [0x93, 32, 20, 0, 0, 0, 0, 0, 0] 5 =
      .cont [0x93, 37, 20, 0, 0, 0, 0, 0, 0] 5 ∧
    select equalPosOracle = .ok (.single [20, 1, 2, 3] 0) :=
  ⟨by decide, by decide, by decide⟩


/-- A setSlice that stays in range preserves the list length. -/
theorem setSlice_length (l seg : List Nat) (s : Nat) (h : s + seg.length ≤ l.length) :
    (setSlice l s seg).length = l.length := by
  unfold setSlice
  simp only [List.length_append, List.length_take, List.length_drop]
  omega

/-- copy_bits_to never changes the length of the destination. -/
theorem copy_bits_to_length (fd : FifoData) (dst dst2 : List Nat) (dvb ret : Nat)
    (h : fd.copy_bits_to dst dvb = some (dst2, ret)) : dst2.length = dst.length := by
  by_cases h0 : fd.valid_bytes = 0
  · rw [FifoData.copy_bits_to, if_pos h0] at h
    simp only [Option.some.injEq, Prod.mk.injEq] at h
    rw [← h.1]
  · rw [FifoData.copy_bits_to, if_neg h0] at h
    dsimp only at h
    split at h
    · rename_i hguard
      split at h
      · split at h
        · rename_i hguard2
          simp only [Option.some.injEq, Prod.mk.injEq] at h
          rw [← h.1]
          rw [setSlice_length]
          · exact List.length_set dst _ _
          · simp only [List.length_take, List.length_drop]
            simp only [List.length_set] at hguard2 ⊢
            omega
        · exact absurd h (by simp)
      · simp only [Option.some.injEq, Prod.mk.injEq] at h
        rw [← h.1]
        exact List.length_set dst _ _
    · exact absurd h (by simp)

/-- C2 (amended): in the anti-collision inner loop, a Collision round with
decoded position coll_pos fails with a Collision error exactly when coll_pos
is strictly below known_bits or exceeds 72 bits; for
known_bits ≤ coll_pos ≤ 72 — equality included, where the source makes no
progress — the loop continues with known_bits = coll_pos.  The last two
conjuncts propagate a failing or a continuing round through the loop: a
failing round ends the loop with that error, a continuing round recurses on
the updated frame and bit count. -/
theorem collision_progress_check :
    (∀ (round : ChipRound) (tx : List Nat) (kb cr : Nat) (fd : FifoData),
      round.comm = .error .Collision →
      round.collReg = .ok cr →
      round.collFifo = .ok fd →
      tx.length = 9 →
      kb ≤ 56 →
      ((decode_coll_pos (cr % 256) < kb ∨ 72 < decode_coll_pos (cr % 256) →
          anticollision_step round tx kb = .fail .Collision) ∧
        (kb ≤ decode_coll_pos (cr % 256) →
          decode_coll_pos (cr % 256) ≤ 72 →
          ∀ dst ret, fd.copy_bits_to ((tx.drop 2).take 5) kb = some (dst, ret) →
          1 + decode_coll_pos (cr % 256) / 8 +
              (if decode_coll_pos (cr % 256) % 8 ≠ 0 then 1 else 0) < 9 →
          ∃ tx2, anticollision_step round tx kb = .cont tx2 (decode_coll_pos (cr % 256))))) ∧
    (∀ (oracle : Nat → ChipRound) (rem idx : Nat) (tx : List Nat) (kb : Nat) (e : Error),
      anticollision_step (oracle idx) tx kb = .fail e →
      anticollision_loop oracle (rem + 1) idx tx kb = (.fail e, idx + 1)) ∧
    (∀ (oracle : Nat → ChipRound) (rem idx : Nat) (tx tx2 : List Nat) (kb kb2 : Nat),
      anticollision_step (oracle idx) tx kb = .cont tx2 kb2 →
      anticollision_loop oracle (rem + 1) idx tx kb =
        anticollision_loop oracle rem (idx + 1) tx2 kb2) := by
  refine ⟨?_, ?_, ?_⟩
  · intro round tx kb cr fd hc hr hf hlen hkb
    have hend : ¬ ((tx.set 1 ((2 + kb / 8) * 16 % 256 + kb % 8)).length
        < 2 + kb / 8 + (if kb % 8 > 0 then 1 else 0)) := by
      rw [List.length_set, hlen]
      split <;> omega
    constructor
    · intro hrej
      have hprej : decode_coll_pos (cr % 256) < kb ∨ decode_coll_pos (cr % 256) > 8 * 9 := by
        omega
      simp only [anticollision_step, hc, hr]
      rw [if_neg hend, if_pos hprej]
    · intro hge hle dst ret hcopy hidx
      have hnrej : ¬ (decode_coll_pos (cr % 256) < kb ∨ decode_coll_pos (cr % 256) > 8 * 9) := by
        omega
      have hdrop : (tx.set 1 ((2 + kb / 8) * 16 % 256 + kb % 8)).drop 2 = tx.drop 2 := by
        rw [List.drop_set]
        simp
      have hdst : dst.length = 5 := by
        rw [copy_bits_to_length _ _ _ _ _ hcopy]
        simp [List.length_take, List.length_drop, hlen]
      have hsl : (setSlice (tx.set 1 ((2 + kb / 8) * 16 % 256 + kb % 8)) 2 dst).length = 9 := by
        rw [setSlice_length]
        · rw [List.length_set]
          exact hlen
        · rw [List.length_set, hlen, hdst]
          omega
      have hcond : 1 + decode_coll_pos (cr % 256) / 8 +
          (if decode_coll_pos (cr % 256) % 8 ≠ 0 then 1 else 0)
            < (setSlice (tx.set 1 ((2 + kb / 8) * 16 % 256 + kb % 8)) 2 dst).length := by
        rw [hsl]
        exact hidx
      apply Exists.intro
      simp only [anticollision_step, hc, hr, hf]
      rw [if_neg hend, if_neg hnrej, hdrop, hcopy]
      dsimp only
      rw [if_pos hcond]
  · intro oracle rem idx tx kb e hstep
    simp only [anticollision_loop, hstep]
  · intro oracle rem idx tx tx2 kb kb2 hstep
    simp only [anticollision_loop, hstep]

/-- Witness for C2: the rejecting branch at a collision decoding to position 5
with 10 bits already known, and the two loop-propagation conjuncts on concrete
rounds. -/
theorem collision_progress_check_witness :
    anticollision_step (equalPosOracle 0) ((List.replicate 9 0).set 0 0x93) 10
        = .fail .Collision ∧
    anticollision_loop (fun _ => padRound) 1 0 ((List.replicate 9 0).set 0 0x93) 0
        = (.fail .NoRoom, 1) ∧
    anticollision_loop stuckCollisionOracle 4 0 ((List.replicate 9 0).set 0 0x93) 0
        = anticollision_loop stuckCollisionOracle 3 1 [0x93, 32, 1, 0, 0, 0, 0, 0, 0] 1 :=
  ⟨((collision_progress_check.1 (equalPosOracle 0) ((List.replicate 9 0).set 0 0x93)
        10 0x28 ⟨[0x04, 0, 0, 0, 0], 1, 0⟩ rfl rfl rfl (by decide) (by decide)).1
      (by decide)),
   collision_progress_check.2.1 (fun _ => padRound) 0 0 _ 0 .NoRoom (by decide),
   collision_progress_check.2.2 stuckCollisionOracle 3 0 _
     [0x93, 32, 1, 0, 0, 0, 0, 0, 0] 0 1 (by decide)⟩


/-- The wait poll loop performs at most one bus operation, the Interrupt
register read on a high pin; in particular it never reads the FIFO. -/
theorem waitGo_ops (ih : Nat → Bool) (iv timeout : Nat) :
    ∀ (fuel i : Nat), (waitGo ih iv timeout fuel i).2 = [] ∨
      (waitGo ih iv timeout fuel i).2 = [BusOp.readReg .Interrupt] := by
  intro fuel
  induction fuel with
  | zero =>
    intro i
    left
    rfl
  | succ n ihf =>
    intro i
    by_cases h1 : ih i
    · right
      simp [waitGo, h1]
    · by_cases h2 : timeout ≤ i
      · left
        simp [waitGo, h1, h2]
      · simpa [waitGo, h1, h2] using ihf (i + 1)

/-- C7: when the wake-up wait succeeds, reqa and wupa inspect the FIFO status
register; the all-ones sentinel in its high six bits yields an empty result
(not an error) with no FIFO read performed on the bus, and any other status
harvests exactly two FIFO bytes as the AtqA response. -/
theorem reqa_wupa_sentinel :
    ∀ (chip : WakeChip) (f : Nat) (wops : List BusOp),
      wait_for_interrupt chip 5 = (.ok f, wops) →
      (((chip.fifoStatus % 256) >>> 2 = 0b00111111 →
          (reqa chip).1 = .ok none ∧ (wupa chip).1 = .ok none ∧
          (∀ n, BusOp.readFifo n ∉ (reqa chip).2) ∧
          (∀ n, BusOp.readFifo n ∉ (wupa chip).2)) ∧
        ((chip.fifoStatus % 256) >>> 2 ≠ 0b00111111 →
          (reqa chip).1 = .ok (some [chip.fifo 0 % 256, chip.fifo 1 % 256]) ∧
          (wupa chip).1 = .ok (some [chip.fifo 0 % 256, chip.fifo 1 % 256]) ∧
          BusOp.readFifo 2 ∈ (reqa chip).2 ∧ BusOp.readFifo 2 ∈ (wupa chip).2 ∧
          (∀ n, BusOp.readFifo n ∈ (reqa chip).2 → n = 2) ∧
          (∀ n, BusOp.readFifo n ∈ (wupa chip).2 → n = 2))) := by
  intro chip f wops hw
  have hwop : wops = [] ∨ wops = [BusOp.readReg .Interrupt] := by
    have h2 : (waitGo chip.intrHigh chip.interruptVal 5 6 0).2 = wops := by
      rw [show waitGo chip.intrHigh chip.interruptVal 5 6 0
          = wait_for_interrupt chip 5 from rfl, hw]
    rcases waitGo_ops chip.intrHigh chip.interruptVal 5 6 0 with h | h
    · left
      rw [h2] at h
      exact h
    · right
      rw [h2] at h
      exact h
  constructor
  · intro hsent
    refine ⟨?_, ?_, ?_, ?_⟩
    · simp only [reqa, hw]
      rw [if_pos hsent]
    · simp only [wupa, hw]
      rw [if_pos hsent]
    · intro n hmem
      simp only [reqa, hw] at hmem
      rw [if_pos hsent] at hmem
      rcases hwop with h | h <;>
        simp [h, setupMaskOps] at hmem
    · intro n hmem
      simp only [wupa, hw] at hmem
      rw [if_pos hsent] at hmem
      rcases hwop with h | h <;>
        simp [h, setupMaskOps] at hmem
  · intro hsent
    refine ⟨?_, ?_, ?_, ?_, ?_, ?_⟩
    · simp only [reqa, hw]
      rw [if_neg hsent]
    · simp only [wupa, hw]
      rw [if_neg hsent]
    · simp only [reqa, hw]
      rw [if_neg hsent]
      simp
    · simp only [wupa, hw]
      rw [if_neg hsent]
      simp
    · intro n hmem
      simp only [reqa, hw] at hmem
      rw [if_neg hsent] at hmem
      rcases hwop with h | h <;>
        simp [h, setupMaskOps] at hmem <;>
        exact hmem
    · intro n hmem
      simp only [wupa, hw] at hmem
      rw [if_neg hsent] at hmem
      rcases hwop with h | h <;>
        simp [h, setupMaskOps] at hmem <;>
        exact hmem

/-- Witness for C7 on the sentinel chip: pin immediately high, FIFO status
0b11111100, so both wake-up calls return an empty result and the trace of reqa
holds no FIFO read of two bytes. -/
theorem reqa_wupa_sentinel_witness :
    (reqa sentinelChip).1 = .ok none ∧ (wupa sentinelChip).1 = .ok none ∧
    BusOp.readFifo 2 ∉ (reqa sentinelChip).2 :=
  ⟨((reqa_wupa_sentinel sentinelChip 0 [.readReg .Interrupt] rfl).1 (by decide)).1,
   ((reqa_wupa_sentinel sentinelChip 0 [.readReg .Interrupt] rfl).1 (by decide)).2.1,
   ((reqa_wupa_sentinel sentinelChip 0 [.readReg .Interrupt] rfl).1 (by decide)).2.2.1 2⟩


/-- Witness for C5 at the concrete merge of source byte 0xF0 into a
destination whose boundary byte holds the low nibble 0x5 at bit offset 4. -/
theorem copy_bits_to_masked_merge_witness :
    [0xF5, 0, 0, 0, 0].getD 0 0 % 2 ^ 4 = [0x05, 0, 0, 0, 0].getD 0 0 % 2 ^ 4 ∧
    FifoData.copy_bits_to ⟨[0xF0, 0, 0, 0, 0], 1, 0⟩ [0x05, 0, 0, 0, 0] 4
      = some ([0xF5, 0, 0, 0, 0], 4) :=
  ⟨copy_bits_to_masked_merge.1 ⟨[0xF0, 0, 0, 0, 0], 1, 0⟩ [0x05, 0, 0, 0, 0]
      [0xF5, 0, 0, 0, 0] 4 4 (by decide) (by decide),
   copy_bits_to_masked_merge.2⟩

end AS3910
